import Mathlib

/- Shallow embedding of the core calculation modules of the CelestialGuide
backend: `backend/core/astrology_calc.py` and `backend/core/astronomy.py`.

External ephemeris libraries (Swiss Ephemeris, Skyfield) are abstracted as
function parameters.  Numeric values are modelled as rationals wherever the
code only compares, adds and divides (keeping every definition executable),
and as real numbers for the trigonometric bulk pipeline of
`calculate_bulk_positions`. -/

/-! ## astrology_calc.py : module-level constants -/

/-- `ZODIAC_SIGNS` from `astrology_calc.py`. -/
def ZODIAC_SIGNS : List String :=
  ["Aries", "Taurus", "Gemini", "Cancer",
   "Leo", "Virgo", "Libra", "Scorpio",
   "Sagittarius", "Capricorn", "Aquarius", "Pisces"]

/-- `HOUSE_SYSTEMS` from `astrology_calc.py` (name to Swiss Ephemeris code),
in the insertion order of the Python dict. -/
def HOUSE_SYSTEMS : List (String × Char) :=
  [("Placidus", 'P'), ("Koch", 'K'), ("Whole Sign", 'W'),
   ("Equal", 'E'), ("Campanus", 'C'), ("Regiomontanus", 'R')]

/-- `ASPECTS` from `astrology_calc.py` (name, angle, orb), in the insertion
order of the Python dict, which is the iteration order of the aspect scan. -/
def ASPECTS : List (String × ℚ × ℚ) :=
  [("Conjunction", 0, 10), ("Opposition", 180, 10), ("Trine", 120, 8),
   ("Square", 90, 8), ("Sextile", 60, 6), ("Quincunx", 150, 3),
   ("Semi-Sextile", 30, 2)]

/-! ## Python numeric primitives -/

/-- Python float modulo `a % b`: the result has the sign of the divisor, so
for a positive divisor it lies in `[0, b)`. -/
def qmod (a b : ℚ) : ℚ := a - b * ⌊a / b⌋

/-- Python `int(...)` truncation toward zero. -/
def pytrunc (q : ℚ) : ℤ := if q < 0 then -⌊-q⌋ else ⌊q⌋

/-- Python `round` to an integer: round half to even. -/
def pyRoundHalfEven (x : ℚ) : ℤ :=
  if x - ⌊x⌋ < 1/2 then ⌊x⌋
  else if 1/2 < x - ⌊x⌋ then ⌊x⌋ + 1
  else if ⌊x⌋ % 2 = 0 then ⌊x⌋ else ⌊x⌋ + 1

/-- Python `round(x, 2)`. -/
def round2 (x : ℚ) : ℚ := (pyRoundHalfEven (x * 100) : ℚ) / 100

/-! ## degree_to_sign_info -/

/-- The sign index computed by `degree_to_sign_info`:
`int((degree % 360) // 30)` (Python float floor-division). -/
def sign_index (degree : ℚ) : ℕ := (⌊qmod degree 360 / 30⌋).toNat

/-- `degree_to_sign_info` from `astrology_calc.py`: reduce the degree mod
360, index `ZODIAC_SIGNS` by `int(degree // 30)` and return the degree
within the sign (`degree % 30` after the mod-360 reassignment).  The Python
list indexing raises on an out-of-range index; here it is `getD` with a
sentinel, and the C10 theorem shows the sentinel is never reached. -/
def degree_to_sign_info (degree : ℚ) : String × ℚ :=
  (ZODIAC_SIGNS.getD (sign_index degree) "", qmod (qmod degree 360) 30)

/-! ## calculate_houses -/

/-- The ascendant/midheaven record assembled by `calculate_houses`
(`degree`, `sign`, `degree_in_sign` rounded to 2 decimals, and the
`formatted` string `f"{int(deg)}° {sign}"`). -/
structure AngleInfo where
  degree : ℚ
  sign : String
  degree_in_sign : ℚ
  formatted : String
deriving DecidableEq, Repr

/-- One element of the `house_cusps` list assembled by `calculate_houses`. -/
structure CuspInfo where
  house : ℕ
  degree : ℚ
  sign : String
  degree_in_sign : ℚ
deriving DecidableEq, Repr

/-- The dictionary returned by `calculate_houses` on success. -/
structure HousesResult where
  ascendant : AngleInfo
  midheaven : AngleInfo
  house_cusps : List CuspInfo
deriving DecidableEq, Repr

/-- Assemble the ascendant/midheaven entry from an absolute degree, exactly
as `calculate_houses` does. -/
def angleInfoOf (d : ℚ) : AngleInfo :=
  { degree := d
    sign := (degree_to_sign_info d).1
    degree_in_sign := round2 (degree_to_sign_info d).2
    formatted := toString (pytrunc (degree_to_sign_info d).2) ++ "° " ++ (degree_to_sign_info d).1 }

/-- Assemble one `house_cusps` entry from a house number and an absolute
degree, exactly as `calculate_houses` does. -/
def cuspInfoOf (house : ℕ) (d : ℚ) : CuspInfo :=
  { house := house
    degree := d
    sign := (degree_to_sign_info d).1
    degree_in_sign := round2 (degree_to_sign_info d).2 }

/-- `HOUSE_SYSTEMS.get(house_system, b'P')` from `calculate_houses`. -/
def hsysOf (house_system : String) : Char :=
  (List.lookup house_system HOUSE_SYSTEMS).getD 'P'

/-- `calculate_houses` from `astrology_calc.py`.  The call into
`swe.houses` is abstracted as the function parameter `swe_houses`, which
returns the `(cusps, ascmc)` pair of lists.  The Python code raises
`ValueError` when `len(ascmc) < 2` or `len(cusps) < 12` (re-raised by the
surrounding `except`), modelled as `Except.error`; otherwise it converts
the first two angles and the first 12 cusps through
`degree_to_sign_info`. -/
def calculate_houses (swe_houses : ℚ → ℚ → ℚ → Char → List ℚ × List ℚ)
    (jd lat lon : ℚ) (house_system : String) : Except String HousesResult :=
  let res := swe_houses jd lat lon (hsysOf house_system)
  if res.2.length < 2 then
    Except.error ("Invalid ascmc data: length " ++ toString res.2.length)
  else if res.1.length < 12 then
    Except.error ("Invalid cusps data: expected at least 12 elements, got "
      ++ toString res.1.length)
  else
    Except.ok
      { ascendant := angleInfoOf (res.2.getD 0 0)
        midheaven := angleInfoOf (res.2.getD 1 0)
        house_cusps := (List.range 12).map (fun i => cuspInfoOf (i + 1) (res.1.getD i 0)) }

/-- Whether an `Except` value is a success. -/
def isOkB {ε α : Type} : Except ε α → Bool
  | Except.ok _ => true
  | Except.error _ => false

/-- Stub ephemeris house routine returning 12 cusps and 2 angles. -/
def stubHouses : ℚ → ℚ → ℚ → Char → List ℚ × List ℚ :=
  fun _ _ _ _ => ([0, 30, 60, 90, 120, 150, 180, 210, 240, 270, 300, 330], [100, 200])

/-- Stub ephemeris house routine returning 13 cusps (as some pyswisseph
versions do) and 2 angles. -/
def stubHouses13 : ℚ → ℚ → ℚ → Char → List ℚ × List ℚ :=
  fun _ _ _ _ => ([0, 30, 60, 90, 120, 150, 180, 210, 240, 270, 300, 330, 355], [100, 200])

/-- Stub ephemeris house routine returning all-zero cusps and angles. -/
def stubHousesZero : ℚ → ℚ → ℚ → Char → List ℚ × List ℚ :=
  fun _ _ _ _ => ([0, 0, 0, 0, 0, 0, 0, 0, 0, 0, 0, 0], [0, 0])

/-! ## calculate_aspect -/

/-- The result dictionary of `calculate_aspect`. -/
structure AspectInfo where
  type : String
  angle : ℚ
  orb : ℚ
  applying : Bool
deriving DecidableEq, Repr

/-- The angular separation computed at the top of `calculate_aspect`:
`diff = abs(a1 - a2); if diff > 180: diff = 360 - diff`. -/
def aspectSeparation (a1 a2 : ℚ) : ℚ :=
  if 180 < abs (a1 - a2) then 360 - abs (a1 - a2) else abs (a1 - a2)

/-- `calculate_aspect` from `astrology_calc.py`: scan `ASPECTS` in order and
return the first aspect whose deviation from the ideal angle is within the
orb, reporting the deviation rounded to two decimals and `applying = true`;
`none` when no aspect matches. -/
def calculate_aspect (a1 a2 : ℚ) : Option AspectInfo :=
  (ASPECTS.find? (fun x => decide (abs (aspectSeparation a1 a2 - x.2.1) ≤ x.2.2))).map
    (fun x =>
      { type := x.1
        angle := x.2.1
        orb := round2 (abs (aspectSeparation a1 a2 - x.2.1))
        applying := true })

/-! ## get_house_for_planet -/

/-- The per-interval membership test of `get_house_for_planet`:
wraparound (`cusp_start > cusp_end`) means `lon ≥ start or lon < end`,
otherwise `start ≤ lon < end`. -/
def houseMem (lon s e : ℚ) : Bool :=
  if e < s then decide (s ≤ lon) || decide (lon < e)
  else decide (s ≤ lon) && decide (lon < e)

/-- The `for i in range(12)` scan of `get_house_for_planet`, with the
remaining iteration count as fuel; falls through to house 1. -/
def houseSearchAux (lon : ℚ) (cusps : List ℚ) : ℕ → ℕ → ℕ
  | _, 0 => 1
  | i, fuel + 1 =>
    if houseMem lon (cusps.getD i 0) (cusps.getD ((i + 1) % 12) 0) = true then i + 1
    else houseSearchAux lon cusps (i + 1) fuel

/-- `get_house_for_planet` from `astrology_calc.py`.  The Python function
receives the cusp dictionaries; only their `"degree"` fields are read, so
the embedding takes the list of cusp degrees. -/
def get_house_for_planet (lon : ℚ) (cusps : List ℚ) : ℕ :=
  houseSearchAux lon cusps 0 12

/-! ## find_retrograde_periods -/

/-- The daily scan loop of `find_retrograde_periods`.  `speed` abstracts
`swe.calc_ut(jd, planet_id)[3]` (the ecliptic longitude speed), `st` is the
`retro_start` state (`none` when not in retrograde).  The `if retro_start:`
truthiness test of the Python code (a float, falsy only at 0.0) is the
`s ≠ 0` guard. -/
def retroLoop (speed : ℚ → ℚ) : ℕ → ℚ → Option ℚ → List (ℚ × ℚ)
  | 0, _, _ => []
  | fuel + 1, jd, none =>
    if speed jd < 0 then retroLoop speed fuel (jd + 1) (some jd)
    else retroLoop speed fuel (jd + 1) none
  | fuel + 1, jd, some s =>
    if speed jd < 0 then retroLoop speed fuel (jd + 1) (some s)
    else if s ≠ 0 then (s, jd) :: retroLoop speed fuel (jd + 1) none
    else retroLoop speed fuel (jd + 1) none

/-- `find_retrograde_periods` from `astrology_calc.py`, at the Julian-day
level: the `while jd <= jd_end` loop steps one day at a time starting at
`jd_start`, so it runs `⌊jd_end - jd_start⌋ + 1` times when the range is
non-empty.  Emitted pairs are the `(retro_start, jd)` Julian days whose
calendar rendering (`swe.revjul`, external) makes the returned date
strings. -/
def find_retrograde_periods (speed : ℚ → ℚ) (jd_start jd_end : ℚ) : List (ℚ × ℚ) :=
  retroLoop speed (if jd_start ≤ jd_end then (⌊jd_end - jd_start⌋).toNat + 1 else 0) jd_start none

/-- Speed series with values `[+1,+1,-1,-1,-1,+1]` on days `1..6`. -/
def exSpeedC6 : ℚ → ℚ := fun jd => if jd < 3 then 1 else if jd < 6 then -1 else 1

/-- Speed series that is negative from day 1 on (episode never closes). -/
def exSpeedC7 : ℚ → ℚ := fun jd => if jd < 1 then 1 else -1

/-! ## astronomy.py : calculate_star_position (single-object path) -/

/-- `ObserverLocation` from `astronomy.py`.  The `datetime_utc` field is
modelled by its ISO string (`isoformat()` is what the cache key uses; the
Skyfield time object derived from it is folded into the abstract `altaz`
parameter). -/
structure Observer where
  latitude : ℚ
  longitude : ℚ
  elevation : ℚ := 0
  datetime_utc : Option String := none
deriving DecidableEq, Repr

/-- `StarPosition` from `astronomy.py` (single-object path, rational
model). -/
structure StarPosition where
  name : String
  hip_id : Option ℤ
  ra : ℚ
  dec : ℚ
  altitude : ℚ
  azimuth : ℚ
  magnitude : ℚ
  is_visible : Bool
  distance : Option ℚ := none
deriving DecidableEq, Repr

/-- The key of the module-level `calc_cache`:
`(ra_hours, dec_degrees, lat, lon, isoformat-or-None)`. -/
abbrev CacheKey := ℚ × ℚ × ℚ × ℚ × Option String

/-- The module-level `calc_cache` (a TTL map).  Entries are modelled as an
association list; time-based eviction is not modelled, so "within the TTL
window" is the situation where the relevant entry is still present. -/
abbrev Cache := List (CacheKey × StarPosition)

/-- `calc_cache[key]` lookup. -/
def cacheLookup (k : CacheKey) (c : Cache) : Option StarPosition :=
  (c.find? (fun p => decide (p.1 = k))).map Prod.snd

/-- `calc_cache[key] = value` assignment (newest entry shadows older
ones). -/
def cacheInsert (k : CacheKey) (v : StarPosition) (c : Cache) : Cache := (k, v) :: c

/-- The cache key built by `calculate_star_position`. -/
def cspKey (ra_hours dec_degrees : ℚ) (observer : Observer) : CacheKey :=
  (ra_hours, dec_degrees, observer.latitude, observer.longitude, observer.datetime_utc)

/-- `distance = 1000.0 / parallax_mas if parallax_mas and parallax_mas > 0`
from `calculate_star_position` (`if p and p > 0` is `0 < p` for a float). -/
def starDistance (parallax_mas : Option ℚ) : Option ℚ :=
  match parallax_mas with
  | some p => if 0 < p then some (1000 / p) else none
  | none => none

/-- The `StarPosition` built on a cache miss: the Skyfield topocentric
apparent-place computation (`location.at(t).observe(star).apparent()
.altaz('standard')`) is the abstract `altaz` parameter returning
`(altitude_deg, azimuth_deg)`. -/
def freshPosition (altaz : ℚ → ℚ → Observer → ℚ × ℚ) (min_altitude : ℚ)
    (ra_hours dec_degrees : ℚ) (observer : Observer) (magnitude : ℚ)
    (name : String) (hip_id : Option ℤ) (parallax_mas : Option ℚ) : StarPosition :=
  { name := name
    hip_id := hip_id
    ra := ra_hours * 15
    dec := dec_degrees
    altitude := (altaz ra_hours dec_degrees observer).1
    azimuth := (altaz ra_hours dec_degrees observer).2
    magnitude := magnitude
    is_visible := decide (min_altitude < (altaz ra_hours dec_degrees observer).1)
    distance := starDistance parallax_mas }

/-- `calculate_star_position` from `astronomy.py`, with the module-level
`calc_cache` threaded explicitly.  On a hit the cached object is mutated in
place (`cached.name = name; cached.hip_id = hip_id; cached.magnitude =
magnitude`) and returned, so both the returned value and the stored entry
carry the fresh descriptive fields over the cached numeric geometry.  On a
miss the freshly computed position is stored and returned. -/
def calculate_star_position (altaz : ℚ → ℚ → Observer → ℚ × ℚ) (min_altitude : ℚ)
    (ra_hours dec_degrees : ℚ) (observer : Observer) (magnitude : ℚ)
    (name : String) (hip_id : Option ℤ) (parallax_mas : Option ℚ)
    (cache : Cache) : StarPosition × Cache :=
  match cacheLookup (cspKey ra_hours dec_degrees observer) cache with
  | some cached =>
    ({ cached with name := name, hip_id := hip_id, magnitude := magnitude },
     cacheInsert (cspKey ra_hours dec_degrees observer)
       { cached with name := name, hip_id := hip_id, magnitude := magnitude } cache)
  | none =>
    (freshPosition altaz min_altitude ra_hours dec_degrees observer magnitude name hip_id parallax_mas,
     cacheInsert (cspKey ra_hours dec_degrees observer)
       (freshPosition altaz min_altitude ra_hours dec_degrees observer magnitude name hip_id parallax_mas)
       cache)

/-! ## astronomy.py : calculate_bulk_positions (vectorized batch path)

The batch pipeline is pure trigonometry over floats, modelled over ℝ.
`t.gast` (Greenwich apparent sidereal time, computed once by Skyfield from
the observer instant) is the abstract parameter `gast`; the code computes
`lst = gast + longitude / 15` from it. -/

noncomputable section

open scoped Classical

/-- `np.deg2rad`. -/
def deg2rad (x : ℝ) : ℝ := x * (Real.pi / 180)

/-- `np.rad2deg`. -/
def rad2deg (x : ℝ) : ℝ := x * (180 / Real.pi)

/-- `np.clip(x, lo, hi)`. -/
def npclip (x lo hi : ℝ) : ℝ := max lo (min x hi)

/-- `np.arctan2(y, x)`: the argument of the complex number `x + y·i`. -/
def atan2 (y x : ℝ) : ℝ := Complex.arg (Complex.ofReal x + Complex.ofReal y * Complex.I)

/-- Float `%` (numpy `% 360.0`): `x - y·⌊x / y⌋`, in `[0, y)` for `y > 0`. -/
def fmod (x y : ℝ) : ℝ := x - y * ⌊x / y⌋

/-- `ha_rad = np.deg2rad((lst - ra_hours) * 15.0)` per star. -/
def ha_rad (lst ra : ℝ) : ℝ := deg2rad ((lst - ra) * 15)

/-- `sin_alt = sin(dec)·sin(lat) + cos(dec)·cos(lat)·cos(ha)`. -/
def sin_alt (lat lst ra dec : ℝ) : ℝ :=
  Real.sin (deg2rad dec) * Real.sin (deg2rad lat) +
    Real.cos (deg2rad dec) * Real.cos (deg2rad lat) * Real.cos (ha_rad lst ra)

/-- `altitude_rad = np.arcsin(np.clip(sin_alt, -1, 1))`. -/
def altitude_rad (lat lst ra dec : ℝ) : ℝ :=
  Real.arcsin (npclip (sin_alt lat lst ra dec) (-1) 1)

/-- `altitude_deg = np.rad2deg(altitude_rad)` (uncorrected). -/
def altitude_deg (lat lst ra dec : ℝ) : ℝ := rad2deg (altitude_rad lat lst ra dec)

/-- `cos_alt_safe = np.where(|cos_alt| < 1e-10, 1e-10, cos_alt)`. -/
def cos_alt_safe (lat lst ra dec : ℝ) : ℝ :=
  if |Real.cos (altitude_rad lat lst ra dec)| < 1e-10 then 1e-10
  else Real.cos (altitude_rad lat lst ra dec)

/-- `sin_az = -cos(dec)·sin(ha) / cos_alt_safe`. -/
def sin_az (lat lst ra dec : ℝ) : ℝ :=
  -Real.cos (deg2rad dec) * Real.sin (ha_rad lst ra) / cos_alt_safe lat lst ra dec

/-- `cos_az = (sin(dec) - sin(alt)·sin(lat)) / (cos_alt_safe·cos(lat))`. -/
def cos_az (lat lst ra dec : ℝ) : ℝ :=
  (Real.sin (deg2rad dec) - Real.sin (altitude_rad lat lst ra dec) * Real.sin (deg2rad lat)) /
    (cos_alt_safe lat lst ra dec * Real.cos (deg2rad lat))

/-- `azimuth_deg = np.rad2deg(np.arctan2(sin_az, cos_az)) % 360.0`. -/
def azimuth_deg (lat lst ra dec : ℝ) : ℝ :=
  fmod (rad2deg (atan2 (sin_az lat lst ra dec) (cos_az lat lst ra dec))) 360

/-- The refraction correction of step 5:
`np.where(alt > -1, 1.02 / tan(deg2rad(alt + 10.3 / (alt + 5.11))) / 60, 0)`. -/
def refraction_correction (alt : ℝ) : ℝ :=
  if -1 < alt then 1.02 / Real.tan (deg2rad (alt + 10.3 / (alt + 5.11))) / 60 else 0

/-- `altitude_deg_corrected = altitude_deg + refraction_correction`. -/
def altitude_deg_corrected (lat lst ra dec : ℝ) : ℝ :=
  altitude_deg lat lst ra dec + refraction_correction (altitude_deg lat lst ra dec)

/-- `StarPosition` as built by the batch path (real-number model; the
visibility flag is the proposition the numpy comparison decides). -/
structure StarPositionR where
  name : String
  hip_id : Option ℤ
  ra : ℝ
  dec : ℝ
  altitude : ℝ
  azimuth : ℝ
  magnitude : ℝ
  is_visible : Prop
  distance : Option ℝ

/-- One element of the result list of `calculate_bulk_positions`: empty
name and id, `ra` converted to degrees, corrected altitude, azimuth in
`[0, 360)`, visibility from the corrected altitude. -/
def bulkStar (min_altitude lat lst : ℝ) (star : ℝ × ℝ × ℝ) : StarPositionR :=
  { name := ""
    hip_id := none
    ra := star.1 * 15
    dec := star.2.1
    altitude := altitude_deg_corrected lat lst star.1 star.2.1
    azimuth := azimuth_deg lat lst star.1 star.2.1
    magnitude := star.2.2
    is_visible := min_altitude < altitude_deg_corrected lat lst star.1 star.2.1
    distance := none }

/-- `calculate_bulk_positions` from `astronomy.py`: early return on an
empty input, otherwise one LST for the whole batch and the vectorized
per-star transform, in input order. -/
def calculate_bulk_positions (min_altitude : ℝ) (stars : List (ℝ × ℝ × ℝ))
    (lat lon gast : ℝ) : List StarPositionR :=
  match stars with
  | [] => []
  | _ => stars.map (bulkStar min_altitude lat (gast + lon / 15))

/-- `calculate_bulk_positions` with the module-level `calc_cache` threaded
through, exactly as for the single-object path: the function body never
reads or writes `calc_cache`, so the cache is returned unchanged and the
result does not depend on it. -/
def calculate_bulk_positions_cached (cache : Cache) (min_altitude : ℝ)
    (stars : List (ℝ × ℝ × ℝ)) (lat lon gast : ℝ) : List StarPositionR × Cache :=
  (calculate_bulk_positions min_altitude stars lat lon gast, cache)

/-- The azimuth exactly as the specification text writes it:
`atan2(-cos(dec)·sin(HA), (sin(dec) − sin(alt)·sin(lat)) / cos(lat))`
normalized to `[0, 360)` — no epsilon-guarded division by `cos(alt)`. -/
def spec_azimuth_deg (lat lst ra dec : ℝ) : ℝ :=
  fmod (rad2deg (atan2 (-Real.cos (deg2rad dec) * Real.sin (ha_rad lst ra))
    ((Real.sin (deg2rad dec) - Real.sin (altitude_rad lat lst ra dec) * Real.sin (deg2rad lat)) /
      Real.cos (deg2rad lat)))) 360

/-- The batch result element as described by the specification pipeline:
hour angle from LST − RA times 15 to radians, altitude through
asin-of-clamped spherical formula, the spec's azimuth formula, refraction
added only above −1°, visibility from the corrected altitude. -/
def specBulkStar (min_altitude lat lst : ℝ) (star : ℝ × ℝ × ℝ) : StarPositionR :=
  { name := ""
    hip_id := none
    ra := star.1 * 15
    dec := star.2.1
    altitude := altitude_deg_corrected lat lst star.1 star.2.1
    azimuth := spec_azimuth_deg lat lst star.1 star.2.1
    magnitude := star.2.2
    is_visible := min_altitude < altitude_deg_corrected lat lst star.1 star.2.1
    distance := none }

end

/-- Concrete observer for witnesses. -/
def obs0 : Observer := { latitude := 0, longitude := 0 }

/-- Concrete stand-in for the Skyfield topocentric alt/az computation. -/
def altaz0 : ℚ → ℚ → Observer → ℚ × ℚ := fun _ _ _ => (10, 20)


/-! ## Theorems: arithmetic helpers -/

/-- Python float modulo by a positive divisor is nonnegative. -/
theorem qmod_nonneg (a b : ℚ) (hb : 0 < b) : 0 ≤ qmod a b := by
  have h : (⌊a / b⌋ : ℚ) ≤ a / b := Int.floor_le _
  have h2 : b * (⌊a / b⌋ : ℚ) ≤ b * (a / b) := mul_le_mul_of_nonneg_left h hb.le
  have h3 : b * (a / b) = a := by field_simp
  unfold qmod
  linarith

/-- Python float modulo by a positive divisor is below the divisor. -/
theorem qmod_lt (a b : ℚ) (hb : 0 < b) : qmod a b < b := by
  have h : a / b < (⌊a / b⌋ : ℚ) + 1 := Int.lt_floor_add_one _
  have h2 : b * (a / b) < b * ((⌊a / b⌋ : ℚ) + 1) := by
    exact mul_lt_mul_of_pos_left h hb
  have h3 : b * (a / b) = a := by field_simp
  unfold qmod
  nlinarith

/-- The sign index of `degree_to_sign_info` is always below 12. -/
theorem sign_index_lt (degree : ℚ) : sign_index degree < 12 := by
  unfold sign_index
  have h0 : 0 ≤ qmod degree 360 := qmod_nonneg _ _ (by norm_num)
  have h1 : qmod degree 360 < 360 := qmod_lt _ _ (by norm_num)
  have hf : ⌊qmod degree 360 / 30⌋ < 12 := by
    apply Int.floor_lt.mpr
    rw [div_lt_iff₀ (by norm_num : (0:ℚ) < 30)]
    push_cast
    linarith
  have hf0 : 0 ≤ ⌊qmod degree 360 / 30⌋ := Int.floor_nonneg.mpr (by positivity)
  omega

/-- C10: `degree_to_sign_info` is total on every rational degree, including
negative inputs and inputs at or above 360: the mod-360 reduction lands in
`[0, 360)`, the computed sign index is a valid index into the 12-element
`ZODIAC_SIGNS` list, and the returned degree-within-sign lies in
`[0, 30)`. -/
theorem degree_to_sign_info_total (degree : ℚ) :
    (0 ≤ qmod degree 360 ∧ qmod degree 360 < 360) ∧
    sign_index degree < ZODIAC_SIGNS.length ∧
    (0 ≤ (degree_to_sign_info degree).2 ∧ (degree_to_sign_info degree).2 < 30) := by
  refine ⟨⟨qmod_nonneg _ _ (by norm_num), qmod_lt _ _ (by norm_num)⟩, ?_, ?_, ?_⟩
  · have h := sign_index_lt degree
    have hlen : ZODIAC_SIGNS.length = 12 := rfl
    omega
  · exact qmod_nonneg _ _ (by norm_num)
  · exact qmod_lt _ _ (by norm_num)

/-! ## Theorems: calculate_aspect (C4) -/

/-- The separation computed by `calculate_aspect` equals the specification
formula `min(|a1 - a2|, 360 - |a1 - a2|)`. -/
theorem aspectSeparation_eq_min (a1 a2 : ℚ) :
    aspectSeparation a1 a2 = min (abs (a1 - a2)) (360 - abs (a1 - a2)) := by
  unfold aspectSeparation
  rcases le_or_lt (abs (a1 - a2)) 180 with hle | hgt
  · rw [if_neg (not_lt.mpr hle), (min_eq_left (by linarith))]
  · rw [if_pos hgt, (min_eq_right (by linarith))]

/-- C4 (amended: the reported orb is the deviation rounded to two decimal
places).  For longitudes in `[0, 360)`, `calculate_aspect` computes the
separation `min(|a1 - a2|, 360 - |a1 - a2|)`, scans the seven `ASPECTS` in
their fixed order, returns the first whose deviation from the ideal angle
is within the orb (reporting `round(deviation, 2)` as the orb and
`applying = true`), returns `none` when no aspect matches, and in
particular detects Opposition with orb 0 at (10, 190) and Square with orb
5.00 at (0, 95). -/
theorem calculate_aspect_follows_spec (a1 a2 : ℚ)
    (h1 : 0 ≤ a1) (h1' : a1 < 360) (h2 : 0 ≤ a2) (h2' : a2 < 360) :
    (calculate_aspect a1 a2 =
      (ASPECTS.find? (fun x =>
          decide (abs (min (abs (a1 - a2)) (360 - abs (a1 - a2)) - x.2.1) ≤ x.2.2))).map
        (fun x =>
          { type := x.1
            angle := x.2.1
            orb := round2 (abs (min (abs (a1 - a2)) (360 - abs (a1 - a2)) - x.2.1))
            applying := true })) ∧
    ((∀ x ∈ ASPECTS, ¬ abs (min (abs (a1 - a2)) (360 - abs (a1 - a2)) - x.2.1) ≤ x.2.2) →
      calculate_aspect a1 a2 = none) ∧
    calculate_aspect 10 190 = some { type := "Opposition", angle := 180, orb := 0, applying := true } ∧
    calculate_aspect 0 95 = some { type := "Square", angle := 90, orb := 5, applying := true } := by
  have hsep := aspectSeparation_eq_min a1 a2
  refine ⟨?_, ?_, ?_, ?_⟩
  · unfold calculate_aspect
    rw [hsep]
  · intro hnone
    unfold calculate_aspect
    rw [hsep, List.find?_eq_none.mpr (fun x hx => by simpa using hnone x hx)]
    rfl
  · have hs : aspectSeparation 10 190 = 180 := by norm_num [aspectSeparation]
    unfold calculate_aspect
    rw [hs]
    norm_num [ASPECTS, List.find?, round2, pyRoundHalfEven]
  · have hs : aspectSeparation 0 95 = 95 := by norm_num [aspectSeparation]
    unfold calculate_aspect
    rw [hs]
    norm_num [ASPECTS, List.find?, round2, pyRoundHalfEven]

/-- Witness for C4 at the concrete pair (10, 190). -/
theorem calculate_aspect_follows_spec_witness :
    calculate_aspect 10 190 = some { type := "Opposition", angle := 180, orb := 0, applying := true } :=
  (calculate_aspect_follows_spec 10 190 (by norm_num) (by norm_num) (by norm_num)
    (by norm_num)).2.2.1

/-- Counterexample to C4 as stated: at longitudes 0 and 95.0035 the
deviation from the ideal Square angle is 5.0035, but the orb reported by
`calculate_aspect` is the rounded 5, not the deviation itself. -/
theorem calculate_aspect_orb_rounding_counterexample :
    calculate_aspect 0 (190007/2000) =
      some { type := "Square", angle := 90, orb := 5, applying := true } ∧
    abs (min (abs ((0:ℚ) - 190007/2000)) (360 - abs ((0:ℚ) - 190007/2000)) - 90) = 10007/2000 ∧
    (5 : ℚ) ≠ 10007/2000 := by
  refine ⟨?_, by norm_num [abs_div], by norm_num⟩
  have hsep : aspectSeparation 0 (190007/2000) = 190007/2000 := by
    norm_num [aspectSeparation, abs_div]
  have hfr : Int.fract ((10007:ℚ)/20) = 7/20 := by
    rw [Int.fract]
    norm_num [Int.floor_eq_iff]
  unfold calculate_aspect
  rw [hsep]
  norm_num [ASPECTS, List.find?, round2, pyRoundHalfEven, abs_div, hfr]

/-! ## Theorems: calculate_houses (C5, C8) -/

/-- Counterexample to C5 as stated: with a well-formed ephemeris stub, a
house-system selector that is not in the enumerated set (here
"Not A System", absent from `HOUSE_SYSTEMS`) does not produce an
InvalidInput error: `calculate_houses` succeeds. -/
theorem calculate_houses_unknown_system_counterexample :
    isOkB (calculate_houses stubHouses 0 0 0 "Not A System") = true ∧
    List.lookup "Not A System" HOUSE_SYSTEMS = none := by
  exact ⟨rfl, rfl⟩

/-- C5 (amended): an unrecognized house-system selector does not fail;
`HOUSE_SYSTEMS.get(house_system, b'P')` silently falls back to Placidus,
so the call behaves exactly like a "Placidus" call. -/
theorem calculate_houses_unknown_system_falls_back
    (f : ℚ → ℚ → ℚ → Char → List ℚ × List ℚ) (jd lat lon : ℚ) (s : String)
    (hs : List.lookup s HOUSE_SYSTEMS = none) :
    calculate_houses f jd lat lon s = calculate_houses f jd lat lon "Placidus" := by
  unfold calculate_houses hsysOf
  rw [hs]
  rfl

/-- Witness for C5 at the concrete selector "Topocentric". -/
theorem calculate_houses_unknown_system_falls_back_witness :
    calculate_houses stubHouses 0 0 0 "Topocentric" =
      calculate_houses stubHouses 0 0 0 "Placidus" :=
  calculate_houses_unknown_system_falls_back stubHouses 0 0 0 "Topocentric" rfl

/-- Sign conversion at 125 degrees: Leo, 5 within sign. -/
theorem degree_to_sign_info_125 : degree_to_sign_info 125 = ("Leo", 5) := by
  norm_num [degree_to_sign_info, sign_index, qmod, ZODIAC_SIGNS]
  rfl

/-- Unfolding equation for `calculate_houses` (the Python locals `cusps`
and `ascmc` zeta-reduced away). -/
theorem calculate_houses_def (f : ℚ → ℚ → ℚ → Char → List ℚ × List ℚ)
    (jd lat lon : ℚ) (hs : String) :
    calculate_houses f jd lat lon hs =
      if (f jd lat lon (hsysOf hs)).2.length < 2 then
        Except.error ("Invalid ascmc data: length " ++ toString (f jd lat lon (hsysOf hs)).2.length)
      else if (f jd lat lon (hsysOf hs)).1.length < 12 then
        Except.error ("Invalid cusps data: expected at least 12 elements, got "
          ++ toString (f jd lat lon (hsysOf hs)).1.length)
      else
        Except.ok
          { ascendant := angleInfoOf ((f jd lat lon (hsysOf hs)).2.getD 0 0)
            midheaven := angleInfoOf ((f jd lat lon (hsysOf hs)).2.getD 1 0)
            house_cusps := (List.range 12).map
              (fun i => cuspInfoOf (i + 1) ((f jd lat lon (hsysOf hs)).1.getD i 0)) } := rfl

/-- Counterexample to C8 as stated: when the ephemeris routine yields 13
cusps (not exactly 12) together with a valid angle pair,
`calculate_houses` does not fail: the `len(cusps) < 12` check accepts any
count of at least 12. -/
theorem calculate_houses_thirteen_cusps_counterexample :
    isOkB (calculate_houses stubHouses13 0 0 0 "Placidus") = true ∧
    (stubHouses13 0 0 0 'P').1.length ≠ 12 := by
  exact ⟨rfl, by simp [stubHouses13]⟩

/-- C8 (amended: the count validation is "at least", not "exactly" — fewer
than 2 angles or fewer than 12 cusps fail, larger returns are accepted and
the first 12 cusps / first 2 angles are used).  On success
`calculate_houses` returns exactly 12 house cusps carrying the distinct
house numbers 1..12 plus an Ascendant/Midheaven pair, each absolute degree
converted to (sign, degree-within-sign) by `degree_to_sign_info`, and
degree 125.0 maps to Leo at 5.0 within the sign. -/
theorem calculate_houses_count_and_signs (f : ℚ → ℚ → ℚ → Char → List ℚ × List ℚ)
    (jd lat lon : ℚ) (hs : String) :
    (isOkB (calculate_houses f jd lat lon hs) = true ↔
      2 ≤ (f jd lat lon (hsysOf hs)).2.length ∧ 12 ≤ (f jd lat lon (hsysOf hs)).1.length) ∧
    (∀ r, calculate_houses f jd lat lon hs = Except.ok r →
      r.ascendant = angleInfoOf ((f jd lat lon (hsysOf hs)).2.getD 0 0) ∧
      r.midheaven = angleInfoOf ((f jd lat lon (hsysOf hs)).2.getD 1 0) ∧
      r.house_cusps.length = 12 ∧
      r.house_cusps.map CuspInfo.house = (List.range 12).map (fun i => i + 1) ∧
      ∀ i, i < 12 → r.house_cusps.getD i (cuspInfoOf 0 0) =
        cuspInfoOf (i + 1) ((f jd lat lon (hsysOf hs)).1.getD i 0)) ∧
    degree_to_sign_info 125 = ("Leo", 5) := by
  refine ⟨?_, ?_, degree_to_sign_info_125⟩
  · rw [calculate_houses_def]
    split_ifs with hA hB
    · exact iff_of_false (by simp [isOkB]) (by omega)
    · exact iff_of_false (by simp [isOkB]) (by omega)
    · exact iff_of_true rfl ⟨by omega, by omega⟩
  · intro r hr
    rw [calculate_houses_def] at hr
    split_ifs at hr with hA hB
    injection hr with hr
    subst hr
    refine ⟨rfl, rfl, rfl, rfl, ?_⟩
    intro i hi
    interval_cases i <;> rfl

/-- Witness for C8 at a concrete all-zero ephemeris stub. -/
theorem calculate_houses_count_and_signs_witness :
    (HousesResult.mk (angleInfoOf 0) (angleInfoOf 0)
        ((List.range 12).map (fun i => cuspInfoOf (i + 1) 0))).house_cusps.map CuspInfo.house =
      (List.range 12).map (fun i => i + 1) :=
  ((calculate_houses_count_and_signs stubHousesZero 0 0 0 "Koch").2.1
    (HousesResult.mk (angleInfoOf 0) (angleInfoOf 0)
      ((List.range 12).map (fun i => cuspInfoOf (i + 1) 0)))
    rfl).2.2.2.1

/-! ## Theorems: find_retrograde_periods (C6, C7) -/

/-- Step equation for `retroLoop` when not in retrograde. -/
theorem retroLoop_succ_none (speed : ℚ → ℚ) (fuel : ℕ) (jd : ℚ) :
    retroLoop speed (fuel + 1) jd none =
      if speed jd < 0 then retroLoop speed fuel (jd + 1) (some jd)
      else retroLoop speed fuel (jd + 1) none := rfl

/-- Step equation for `retroLoop` while in retrograde. -/
theorem retroLoop_succ_some (speed : ℚ → ℚ) (fuel : ℕ) (jd s : ℚ) :
    retroLoop speed (fuel + 1) jd (some s) =
      if speed jd < 0 then retroLoop speed fuel (jd + 1) (some s)
      else if s ≠ 0 then (s, jd) :: retroLoop speed fuel (jd + 1) none
      else retroLoop speed fuel (jd + 1) none := rfl

/-- Counterexample to C6 as stated: on the speed series
`[+1,+1,-1,-1,-1,+1]` over days 1..6 the single reported interval is
`(3, 6)` — its end is day 6, the first day with non-negative speed again —
not `(3, 5)`, the last negative-speed day that the claim asserts. -/
theorem find_retrograde_periods_end_day_counterexample :
    find_retrograde_periods exSpeedC6 1 6 = [(3, 6)] ∧
    find_retrograde_periods exSpeedC6 1 6 ≠ [(3, 5)] := by
  have h : find_retrograde_periods exSpeedC6 1 6 = [(3, 6)] := by
    have hf : (if (1:ℚ) ≤ 6 then (⌊(6:ℚ) - 1⌋).toNat + 1 else 0) = 6 := by
      norm_num
      rfl
    unfold find_retrograde_periods
    rw [hf]
    norm_num [retroLoop, exSpeedC6]
  refine ⟨h, by rw [h]; norm_num⟩

/-- C6 (amended: the emitted interval runs from the first negative-speed
day to the first non-negative-speed day after the episode, one day past
the last negative day).  For any speed series equal to
`[+1,+1,-1,-1,-1,+1]` on six consecutive days starting at a positive
Julian day `jd0`, `find_retrograde_periods` reports exactly one episode,
the interval `(jd0 + 2, jd0 + 5)`. -/
theorem find_retrograde_periods_synthetic_series (speed : ℚ → ℚ) (jd0 : ℚ)
    (h0 : 0 < jd0) (h1 : speed jd0 = 1) (h2 : speed (jd0 + 1) = 1)
    (h3 : speed (jd0 + 2) = -1) (h4 : speed (jd0 + 3) = -1)
    (h5 : speed (jd0 + 4) = -1) (h6 : speed (jd0 + 5) = 1) :
    find_retrograde_periods speed jd0 (jd0 + 5) = [(jd0 + 2, jd0 + 5)] := by
  have hf : (if jd0 ≤ jd0 + 5 then (⌊jd0 + 5 - jd0⌋).toNat + 1 else 0) = 6 := by
    rw [if_pos (by linarith), show jd0 + 5 - jd0 = 5 by ring]
    norm_num
    rfl
  unfold find_retrograde_periods
  rw [hf]
  rw [show (6:ℕ) = 5 + 1 from rfl, retroLoop_succ_none, h1, if_neg (by norm_num)]
  rw [show (5:ℕ) = 4 + 1 from rfl, retroLoop_succ_none, h2, if_neg (by norm_num)]
  rw [show (4:ℕ) = 3 + 1 from rfl, retroLoop_succ_none, show jd0 + 1 + 1 = jd0 + 2 by ring,
    h3, if_pos (by norm_num)]
  rw [show (3:ℕ) = 2 + 1 from rfl, retroLoop_succ_some, show jd0 + 2 + 1 = jd0 + 3 by ring,
    h4, if_pos (by norm_num)]
  rw [show (2:ℕ) = 1 + 1 from rfl, retroLoop_succ_some, show jd0 + 3 + 1 = jd0 + 4 by ring,
    h5, if_pos (by norm_num)]
  rw [show (1:ℕ) = 0 + 1 from rfl, retroLoop_succ_some, show jd0 + 4 + 1 = jd0 + 5 by ring,
    h6, if_neg (by norm_num)]
  rw [if_pos (show jd0 + 2 ≠ 0 by intro hc; linarith)]
  rfl

/-- Witness for C6 with the concrete series starting at day 1. -/
theorem find_retrograde_periods_synthetic_series_witness :
    find_retrograde_periods exSpeedC6 1 (1 + 5) = [(1 + 2, 1 + 5)] :=
  find_retrograde_periods_synthetic_series exSpeedC6 1 (by norm_num)
    (by norm_num [exSpeedC6]) (by norm_num [exSpeedC6]) (by norm_num [exSpeedC6])
    (by norm_num [exSpeedC6]) (by norm_num [exSpeedC6]) (by norm_num [exSpeedC6])

/-- Every pair emitted by `retroLoop` ends on a scanned day with
non-negative speed, and starts either at the carried-in state or on an
earlier scanned day with negative speed. -/
theorem retroLoop_mem (speed : ℚ → ℚ) :
    ∀ (n : ℕ) (jd : ℚ) (st : Option ℚ) (pr : ℚ × ℚ), pr ∈ retroLoop speed n jd st →
      ∃ j : ℕ, j < n ∧ pr.2 = jd + j ∧ 0 ≤ speed (jd + j) ∧
        (st = some pr.1 ∨ ∃ i : ℕ, i < j ∧ pr.1 = jd + i ∧ speed (jd + i) < 0) := by
  intro n
  induction n with
  | zero =>
    intro jd st pr h
    simp [retroLoop] at h
  | succ n ih =>
    intro jd st pr h
    have hcast : ∀ (k : ℕ), jd + 1 + (k : ℚ) = jd + ((k + 1 : ℕ) : ℚ) := by
      intro k
      push_cast
      ring
    match st with
    | none =>
      rw [retroLoop_succ_none] at h
      by_cases hs : speed jd < 0
      · rw [if_pos hs] at h
        obtain ⟨j, hj, hp2, hsp, hrest⟩ := ih (jd + 1) (some jd) pr h
        refine ⟨j + 1, by omega, by rw [hp2]; exact hcast j, by rw [← hcast j]; exact hsp, ?_⟩
        rcases hrest with hj1 | ⟨i, hij, hp1, hsi⟩
        · refine Or.inr ⟨0, by omega, ?_, ?_⟩
          · have : pr.1 = jd := by
              injection hj1.symm
            rw [this]
            norm_num
          · have hz : jd + ((0 : ℕ) : ℚ) = jd := by norm_num
            rw [hz]
            exact hs
        · exact Or.inr ⟨i + 1, by omega, by rw [hp1]; exact hcast i, by rw [← hcast i]; exact hsi⟩
      · rw [if_neg hs] at h
        obtain ⟨j, hj, hp2, hsp, hrest⟩ := ih (jd + 1) none pr h
        refine ⟨j + 1, by omega, by rw [hp2]; exact hcast j, by rw [← hcast j]; exact hsp, ?_⟩
        rcases hrest with hj1 | ⟨i, hij, hp1, hsi⟩
        · exact absurd hj1 (by simp)
        · exact Or.inr ⟨i + 1, by omega, by rw [hp1]; exact hcast i, by rw [← hcast i]; exact hsi⟩
    | some s =>
      rw [retroLoop_succ_some] at h
      by_cases hs : speed jd < 0
      · rw [if_pos hs] at h
        obtain ⟨j, hj, hp2, hsp, hrest⟩ := ih (jd + 1) (some s) pr h
        refine ⟨j + 1, by omega, by rw [hp2]; exact hcast j, by rw [← hcast j]; exact hsp, ?_⟩
        rcases hrest with hj1 | ⟨i, hij, hp1, hsi⟩
        · exact Or.inl hj1
        · exact Or.inr ⟨i + 1, by omega, by rw [hp1]; exact hcast i, by rw [← hcast i]; exact hsi⟩
      · rw [if_neg hs] at h
        by_cases hz : s ≠ 0
        · rw [if_pos hz] at h
          rcases List.mem_cons.mp h with hpr | hpr
          · refine ⟨0, by omega, ?_, ?_, Or.inl ?_⟩
            · rw [hpr]
              norm_num
            · have hz0 : jd + ((0 : ℕ) : ℚ) = jd := by norm_num
              rw [hz0]
              exact not_lt.mp hs
            · rw [hpr]
          · obtain ⟨j, hj, hp2, hsp, hrest⟩ := ih (jd + 1) none pr hpr
            refine ⟨j + 1, by omega, by rw [hp2]; exact hcast j, by rw [← hcast j]; exact hsp, ?_⟩
            rcases hrest with hj1 | ⟨i, hij, hp1, hsi⟩
            · exact absurd hj1 (by simp)
            · exact Or.inr ⟨i + 1, by omega, by rw [hp1]; exact hcast i, by rw [← hcast i]; exact hsi⟩
        · rw [if_neg hz] at h
          obtain ⟨j, hj, hp2, hsp, hrest⟩ := ih (jd + 1) none pr h
          refine ⟨j + 1, by omega, by rw [hp2]; exact hcast j, by rw [← hcast j]; exact hsp, ?_⟩
          rcases hrest with hj1 | ⟨i, hij, hp1, hsi⟩
          · exact absurd hj1 (by simp)
          · exact Or.inr ⟨i + 1, by omega, by rw [hp1]; exact hcast i, by rw [← hcast i]; exact hsi⟩

/-- C7: a retrograde episode still open on the final scanned day is
silently dropped.  If day `jd_start + m` is scanned and the speed is
negative on it and on every later scanned day, then no interval in the
result of `find_retrograde_periods` starts at `jd_start + m`. -/
theorem find_retrograde_periods_drops_open_episode (speed : ℚ → ℚ) (a b : ℚ) (m : ℕ)
    (hab : a ≤ b) (hm : a + (m : ℚ) ≤ b)
    (hneg : ∀ k : ℕ, m ≤ k → a + (k : ℚ) ≤ b → speed (a + (k : ℚ)) < 0) :
    ∀ pr ∈ find_retrograde_periods speed a b, pr.1 ≠ a + (m : ℚ) := by
  intro pr hpr heq
  unfold find_retrograde_periods at hpr
  rw [if_pos hab] at hpr
  obtain ⟨j, hj, hp2, hsp, hrest⟩ := retroLoop_mem speed _ a none pr hpr
  rcases hrest with hj1 | ⟨i, hij, hp1, hsi⟩
  · exact absurd hj1 (by simp)
  · have him : (i : ℚ) = (m : ℚ) := by
      rw [heq] at hp1
      linarith [hp1]
    have him' : i = m := by exact_mod_cast him
    have hfl0 : 0 ≤ ⌊b - a⌋ := Int.floor_nonneg.mpr (by linarith)
    have hjz : (j : ℤ) ≤ ⌊b - a⌋ := by omega
    have hjq : (j : ℚ) ≤ b - a := by
      have h1 : ((j : ℤ) : ℚ) ≤ ((⌊b - a⌋ : ℤ) : ℚ) := by exact_mod_cast hjz
      have h2 : ((⌊b - a⌋ : ℤ) : ℚ) ≤ b - a := Int.floor_le _
      push_cast at h1
      linarith
    have hjb : a + (j : ℚ) ≤ b := by linarith
    have := hneg j (by omega) hjb
    linarith

/-- Witness for C7: with a speed that turns negative at day 1 of the range
0..2 and stays negative, the would-be interval starting at day 1 is
absent. -/
theorem find_retrograde_periods_drops_open_episode_witness :
    (((0:ℚ) + (1:ℕ), (2:ℚ)) ∉ find_retrograde_periods exSpeedC7 0 2) := by
  intro h
  exact find_retrograde_periods_drops_open_episode exSpeedC7 0 2 1 (by norm_num)
    (by norm_num)
    (by
      intro k hk hk2
      have hk2' : k ≤ 2 := by exact_mod_cast (by linarith [hk2] : (k : ℚ) ≤ 2)
      interval_cases k <;> norm_num [exSpeedC7])
    ((0:ℚ) + (1:ℕ), (2:ℚ)) h rfl

/-! ## Theorems: calculate_star_position cache behaviour (C2) -/

/-- Looking up a key just inserted returns the inserted value. -/
theorem cacheLookup_insert (k : CacheKey) (v : StarPosition) (c : Cache) :
    cacheLookup k (cacheInsert k v c) = some v := by
  unfold cacheLookup cacheInsert
  rw [List.find?_cons_of_pos _ (by simp)]
  rfl

/-- After any call, the cache holds the returned position under the call's
key. -/
theorem calculate_star_position_snd (altaz : ℚ → ℚ → Observer → ℚ × ℚ)
    (m ra dec : ℚ) (obs : Observer) (mag : ℚ) (name : String) (hip : Option ℤ)
    (par : Option ℚ) (cache : Cache) :
    (calculate_star_position altaz m ra dec obs mag name hip par cache).2 =
      cacheInsert (cspKey ra dec obs)
        (calculate_star_position altaz m ra dec obs mag name hip par cache).1 cache := by
  unfold calculate_star_position
  cases cacheLookup (cspKey ra dec obs) cache <;> rfl

/-- A call whose key is present in the cache returns the cached entry with
the descriptive fields overwritten, and stores that updated entry back. -/
theorem calculate_star_position_hit (altaz : ℚ → ℚ → Observer → ℚ × ℚ)
    (m ra dec : ℚ) (obs : Observer) (mag : ℚ) (name : String) (hip : Option ℤ)
    (par : Option ℚ) (cache : Cache) (v : StarPosition)
    (h : cacheLookup (cspKey ra dec obs) cache = some v) :
    calculate_star_position altaz m ra dec obs mag name hip par cache =
      ({ v with name := name, hip_id := hip, magnitude := mag },
       cacheInsert (cspKey ra dec obs)
         { v with name := name, hip_id := hip, magnitude := mag } cache) := by
  unfold calculate_star_position
  rw [h]

/-- C2: two calls with the same `(RA, Dec, lat, lon, ISO instant)` key, the
second while the entry is still present (within the TTL window, eviction
not being modelled): the second call returns the first call's numeric
geometry (`ra`, `dec`, `altitude`, `azimuth`, `is_visible`, `distance`)
with the second call's `name`, `hip_id` and `magnitude`. -/
theorem calculate_star_position_cache_hit (altaz : ℚ → ℚ → Observer → ℚ × ℚ)
    (m ra dec : ℚ) (obs : Observer) (mag1 mag2 : ℚ) (name1 name2 : String)
    (hip1 hip2 : Option ℤ) (par1 par2 : Option ℚ) (cache : Cache) :
    (calculate_star_position altaz m ra dec obs mag2 name2 hip2 par2
        (calculate_star_position altaz m ra dec obs mag1 name1 hip1 par1 cache).2).1.ra =
      (calculate_star_position altaz m ra dec obs mag1 name1 hip1 par1 cache).1.ra ∧
    (calculate_star_position altaz m ra dec obs mag2 name2 hip2 par2
        (calculate_star_position altaz m ra dec obs mag1 name1 hip1 par1 cache).2).1.dec =
      (calculate_star_position altaz m ra dec obs mag1 name1 hip1 par1 cache).1.dec ∧
    (calculate_star_position altaz m ra dec obs mag2 name2 hip2 par2
        (calculate_star_position altaz m ra dec obs mag1 name1 hip1 par1 cache).2).1.altitude =
      (calculate_star_position altaz m ra dec obs mag1 name1 hip1 par1 cache).1.altitude ∧
    (calculate_star_position altaz m ra dec obs mag2 name2 hip2 par2
        (calculate_star_position altaz m ra dec obs mag1 name1 hip1 par1 cache).2).1.azimuth =
      (calculate_star_position altaz m ra dec obs mag1 name1 hip1 par1 cache).1.azimuth ∧
    (calculate_star_position altaz m ra dec obs mag2 name2 hip2 par2
        (calculate_star_position altaz m ra dec obs mag1 name1 hip1 par1 cache).2).1.is_visible =
      (calculate_star_position altaz m ra dec obs mag1 name1 hip1 par1 cache).1.is_visible ∧
    (calculate_star_position altaz m ra dec obs mag2 name2 hip2 par2
        (calculate_star_position altaz m ra dec obs mag1 name1 hip1 par1 cache).2).1.distance =
      (calculate_star_position altaz m ra dec obs mag1 name1 hip1 par1 cache).1.distance ∧
    (calculate_star_position altaz m ra dec obs mag2 name2 hip2 par2
        (calculate_star_position altaz m ra dec obs mag1 name1 hip1 par1 cache).2).1.name = name2 ∧
    (calculate_star_position altaz m ra dec obs mag2 name2 hip2 par2
        (calculate_star_position altaz m ra dec obs mag1 name1 hip1 par1 cache).2).1.hip_id = hip2 ∧
    (calculate_star_position altaz m ra dec obs mag2 name2 hip2 par2
        (calculate_star_position altaz m ra dec obs mag1 name1 hip1 par1 cache).2).1.magnitude = mag2 := by
  have hlk : cacheLookup (cspKey ra dec obs)
      (calculate_star_position altaz m ra dec obs mag1 name1 hip1 par1 cache).2 =
      some (calculate_star_position altaz m ra dec obs mag1 name1 hip1 par1 cache).1 := by
    rw [calculate_star_position_snd]
    exact cacheLookup_insert _ _ _
  rw [calculate_star_position_hit altaz m ra dec obs mag2 name2 hip2 par2 _ _ hlk]
  exact ⟨rfl, rfl, rfl, rfl, rfl, rfl, rfl, rfl, rfl⟩

/-! ## Theorems: get_house_for_planet (C3) -/

/-- The scan of `get_house_for_planet` returns `k + 1` for the first
matching interval `k`. -/
theorem houseSearchAux_finds (lon : ℚ) (cusps : List ℚ) :
    ∀ (fuel i k : ℕ), i ≤ k → k < i + fuel →
      houseMem lon (cusps.getD k 0) (cusps.getD ((k + 1) % 12) 0) = true →
      (∀ j, i ≤ j → j < k →
        houseMem lon (cusps.getD j 0) (cusps.getD ((j + 1) % 12) 0) = false) →
      houseSearchAux lon cusps i fuel = k + 1 := by
  intro fuel
  induction fuel with
  | zero =>
    intro i k h1 h2 _ _
    omega
  | succ fuel ih =>
    intro i k h1 h2 hk hmin
    show (if houseMem lon (cusps.getD i 0) (cusps.getD ((i + 1) % 12) 0) = true then i + 1
          else houseSearchAux lon cusps (i + 1) fuel) = k + 1
    by_cases hik : i = k
    · subst hik
      rw [if_pos hk]
    · have hlt : i < k := by omega
      rw [if_neg (by rw [hmin i le_rfl hlt]; simp)]
      exact ih (i + 1) k (by omega) (by omega) hk (fun j hj1 hj2 => hmin j (by omega) hj2)

/-- C3: for 12 cusps in `[0, 360)` forming a cyclic ordered partition of
the circle (one strict descent at index `d`, strict ascents everywhere
else) and any longitude in `[0, 360)`, exactly one of the 12 cusp
intervals contains the longitude — wraparound intervals by
`lon ≥ start ∨ lon < end`, ordinary ones by `start ≤ lon < end` — and
`get_house_for_planet` returns that unique house number `i + 1`; the
house-1 fallback is reachable only when no interval matches, which the
existence part rules out here. -/
theorem get_house_for_planet_partition (cusps : List ℚ) (lon : ℚ)
    (hlen : cusps.length = 12)
    (hrange : ∀ i, i < 12 → 0 ≤ cusps.getD i 0 ∧ cusps.getD i 0 < 360)
    (hlon : 0 ≤ lon) (hlon2 : lon < 360)
    (d : ℕ) (hd : d < 12)
    (hdesc : cusps.getD ((d + 1) % 12) 0 < cusps.getD d 0)
    (hasc : ∀ i, i < 12 → i ≠ d → cusps.getD i 0 < cusps.getD ((i + 1) % 12) 0) :
    (∃! i, i < 12 ∧ houseMem lon (cusps.getD i 0) (cusps.getD ((i + 1) % 12) 0) = true) ∧
    (∀ i, i < 12 → houseMem lon (cusps.getD i 0) (cusps.getD ((i + 1) % 12) 0) = true →
      get_house_for_planet lon cusps = i + 1) := by
  have hb : ∀ t : ℕ, t < 11 →
      cusps.getD ((d + 1 + t) % 12) 0 < cusps.getD ((d + 1 + (t + 1)) % 12) 0 := by
    intro t ht
    have h1 : (d + 1 + t) % 12 < 12 := Nat.mod_lt _ (by norm_num)
    have h2 : (d + 1 + t) % 12 ≠ d := by omega
    have h3 : ((d + 1 + t) % 12 + 1) % 12 = (d + 1 + (t + 1)) % 12 := by omega
    have h4 := hasc ((d + 1 + t) % 12) h1 h2
    rw [h3] at h4
    exact h4
  have hmono : ∀ t u : ℕ, t ≤ u → u ≤ 11 →
      cusps.getD ((d + 1 + t) % 12) 0 ≤ cusps.getD ((d + 1 + u) % 12) 0 := by
    intro t u htu hu
    induction u with
    | zero =>
      have ht0 : t = 0 := by omega
      subst ht0
      exact le_rfl
    | succ u ih =>
      rcases Nat.eq_or_lt_of_le htu with heq | hlt
      · rw [heq]
      · exact le_trans (ih (by omega) (by omega)) (hb u (by omega)).le
  have hmem_iff : ∀ i, i < 12 → i ≠ d →
      (houseMem lon (cusps.getD i 0) (cusps.getD ((i + 1) % 12) 0) = true ↔
        cusps.getD i 0 ≤ lon ∧ lon < cusps.getD ((i + 1) % 12) 0) := by
    intro i hi hne
    unfold houseMem
    rw [if_neg (not_lt.mpr (hasc i hi hne).le)]
    simp
  have hmem_d_iff :
      houseMem lon (cusps.getD d 0) (cusps.getD ((d + 1) % 12) 0) = true ↔
        cusps.getD d 0 ≤ lon ∨ lon < cusps.getD ((d + 1) % 12) 0 := by
    unfold houseMem
    rw [if_pos hdesc]
    simp
  have hrep : ∀ i, i < 12 → i ≠ d → ∃ t, t < 11 ∧ (d + 1 + t) % 12 = i := by
    intro i hi hne
    exact ⟨(i + 23 - d) % 12, by omega, by omega⟩
  have hexu : ∃! i, i < 12 ∧
      houseMem lon (cusps.getD i 0) (cusps.getD ((i + 1) % 12) 0) = true := by
    by_cases hcase : cusps.getD d 0 ≤ lon ∨ lon < cusps.getD ((d + 1) % 12) 0
    · have hmemd : houseMem lon (cusps.getD d 0) (cusps.getD ((d + 1) % 12) 0) = true :=
        hmem_d_iff.mpr hcase
      have honly : ∀ j, j < 12 →
          houseMem lon (cusps.getD j 0) (cusps.getD ((j + 1) % 12) 0) = true → j = d := by
        intro j hj hmj
        by_contra hne
        obtain ⟨t, ht, hti⟩ := hrep j hj hne
        have hmj' := (hmem_iff j hj hne).mp hmj
        rcases hcase with hge | hlt
        · have h1 : lon < cusps.getD ((d + 1 + (t + 1)) % 12) 0 := by
            rw [(by omega : (d + 1 + (t + 1)) % 12 = (j + 1) % 12)]
            exact hmj'.2
          have h2 := hmono (t + 1) 11 (by omega) (by omega)
          rw [(by omega : (d + 1 + 11) % 12 = d)] at h2
          linarith
        · have h2 := hmono 0 t (by omega) (by omega)
          rw [(by omega : (d + 1 + 0) % 12 = (d + 1) % 12), hti] at h2
          linarith [hmj'.1]
      exact ⟨d, ⟨hd, hmemd⟩, fun j hj => honly j hj.1 hj.2⟩
    · push_neg at hcase
      have hP0 : cusps.getD ((d + 1 + 0) % 12) 0 ≤ lon := by
        rw [(by omega : (d + 1 + 0) % 12 = (d + 1) % 12)]
        exact hcase.2
      have ht0le : Nat.findGreatest (fun t => cusps.getD ((d + 1 + t) % 12) 0 ≤ lon) 10 ≤ 10 :=
        Nat.findGreatest_le 10
      have hPt0 : cusps.getD
          ((d + 1 + Nat.findGreatest (fun t => cusps.getD ((d + 1 + t) % 12) 0 ≤ lon) 10) % 12) 0
          ≤ lon :=
        Nat.findGreatest_spec (P := fun t => cusps.getD ((d + 1 + t) % 12) 0 ≤ lon)
          (m := 0) (by omega) hP0
      have hup : lon < cusps.getD
          ((d + 1 + (Nat.findGreatest (fun t => cusps.getD ((d + 1 + t) % 12) 0 ≤ lon) 10 + 1)) % 12) 0 := by
        rcases Nat.lt_or_ge (Nat.findGreatest (fun t => cusps.getD ((d + 1 + t) % 12) 0 ≤ lon) 10) 10
          with hlt10 | hge10
        · have hnot := Nat.findGreatest_is_greatest
            (by omega : Nat.findGreatest (fun t => cusps.getD ((d + 1 + t) % 12) 0 ≤ lon) 10 <
              Nat.findGreatest (fun t => cusps.getD ((d + 1 + t) % 12) 0 ≤ lon) 10 + 1)
            (by omega)
          exact not_le.mp hnot
        · rw [(by omega :
            (d + 1 + (Nat.findGreatest (fun t => cusps.getD ((d + 1 + t) % 12) 0 ≤ lon) 10 + 1)) % 12 = d)]
          exact hcase.1
      have hi0lt : (d + 1 + Nat.findGreatest (fun t => cusps.getD ((d + 1 + t) % 12) 0 ≤ lon) 10) % 12 < 12 :=
        Nat.mod_lt _ (by norm_num)
      have hi0ne : (d + 1 + Nat.findGreatest (fun t => cusps.getD ((d + 1 + t) % 12) 0 ≤ lon) 10) % 12 ≠ d := by
        omega
      have hmemi0 : houseMem lon
          (cusps.getD ((d + 1 + Nat.findGreatest (fun t => cusps.getD ((d + 1 + t) % 12) 0 ≤ lon) 10) % 12) 0)
          (cusps.getD (((d + 1 + Nat.findGreatest (fun t => cusps.getD ((d + 1 + t) % 12) 0 ≤ lon) 10) % 12 + 1) % 12) 0)
          = true := by
        refine (hmem_iff _ hi0lt hi0ne).mpr ⟨hPt0, ?_⟩
        rw [(by omega :
          ((d + 1 + Nat.findGreatest (fun t => cusps.getD ((d + 1 + t) % 12) 0 ≤ lon) 10) % 12 + 1) % 12 =
            (d + 1 + (Nat.findGreatest (fun t => cusps.getD ((d + 1 + t) % 12) 0 ≤ lon) 10 + 1)) % 12)]
        exact hup
      have honly : ∀ j, j < 12 →
          houseMem lon (cusps.getD j 0) (cusps.getD ((j + 1) % 12) 0) = true →
          j = (d + 1 + Nat.findGreatest (fun t => cusps.getD ((d + 1 + t) % 12) 0 ≤ lon) 10) % 12 := by
        intro j hj hmj
        by_cases hjd : j = d
        · subst hjd
          rcases hmem_d_iff.mp hmj with hge | hlt
          · linarith [hcase.1]
          · linarith [hcase.2]
        · obtain ⟨t, ht, hti⟩ := hrep j hj hjd
          have hmj' := (hmem_iff j hj hjd).mp hmj
          have h1 : cusps.getD ((d + 1 + t) % 12) 0 ≤ lon := by
            rw [hti]
            exact hmj'.1
          have h2 : lon < cusps.getD ((d + 1 + (t + 1)) % 12) 0 := by
            rw [(by omega : (d + 1 + (t + 1)) % 12 = (j + 1) % 12)]
            exact hmj'.2
          have htt0 : t = Nat.findGreatest (fun t => cusps.getD ((d + 1 + t) % 12) 0 ≤ lon) 10 := by
            by_contra hne
            rcases Nat.lt_or_ge t (Nat.findGreatest (fun t => cusps.getD ((d + 1 + t) % 12) 0 ≤ lon) 10)
              with hlt | hge
            · have h3 := hmono (t + 1)
                (Nat.findGreatest (fun t => cusps.getD ((d + 1 + t) % 12) 0 ≤ lon) 10)
                (by omega) (by omega)
              linarith [hPt0]
            · have hgt : Nat.findGreatest (fun t => cusps.getD ((d + 1 + t) % 12) 0 ≤ lon) 10 < t := by
                omega
              exact Nat.findGreatest_is_greatest hgt (by omega) h1
          rw [← hti, htt0]
      exact ⟨(d + 1 + Nat.findGreatest (fun t => cusps.getD ((d + 1 + t) % 12) 0 ≤ lon) 10) % 12,
        ⟨hi0lt, hmemi0⟩, fun j hj => honly j hj.1 hj.2⟩
  refine ⟨hexu, ?_⟩
  intro i hi hmi
  obtain ⟨i0, hP0, huniq⟩ := hexu
  apply houseSearchAux_finds lon cusps 12 0 i (by omega) (by omega) hmi
  intro j hj0 hji
  cases hbm : houseMem lon (cusps.getD j 0) (cusps.getD ((j + 1) % 12) 0) with
  | false => rfl
  | true =>
    have e1 : j = i0 := huniq j ⟨by omega, hbm⟩
    have e2 : i = i0 := huniq i ⟨hi, hmi⟩
    omega

/-- Witness for C3 on the equal-house cusps `[0, 30, ..., 330]` (descent at
index 11) and longitude 45. -/
theorem get_house_for_planet_partition_witness :
    (∃! i, i < 12 ∧
      houseMem 45 ([0, 30, 60, 90, 120, 150, 180, 210, 240, 270, 300, 330].getD i 0)
        ([0, 30, 60, 90, 120, 150, 180, 210, 240, 270, 300, 330].getD ((i + 1) % 12) 0) = true) ∧
    (∀ i, i < 12 →
      houseMem 45 ([0, 30, 60, 90, 120, 150, 180, 210, 240, 270, 300, 330].getD i 0)
        ([0, 30, 60, 90, 120, 150, 180, 210, 240, 270, 300, 330].getD ((i + 1) % 12) 0) = true →
      get_house_for_planet 45 [0, 30, 60, 90, 120, 150, 180, 210, 240, 270, 300, 330] = i + 1) :=
  get_house_for_planet_partition [0, 30, 60, 90, 120, 150, 180, 210, 240, 270, 300, 330] 45
    rfl (by decide) (by norm_num) (by norm_num) 11 (by norm_num) (by norm_num)
    (by decide)

/-! ## Theorems: the batch pipeline follows the spec (C1) -/

/-- The epsilon-guarded `cos_alt_safe` is strictly positive: the altitude
is an arcsine value, so its cosine is nonnegative, and the guard replaces
anything below `1e-10` by `1e-10`. -/
theorem cos_alt_safe_pos (lat lst ra dec : ℝ) : 0 < cos_alt_safe lat lst ra dec := by
  unfold cos_alt_safe
  split_ifs with h
  · norm_num
  · have h0 : 0 ≤ Real.cos (altitude_rad lat lst ra dec) := by
      unfold altitude_rad
      rw [Real.cos_arcsin]
      positivity
    rw [abs_of_nonneg h0] at h
    push_neg at h
    have h1 : (0:ℝ) < 1e-10 := by norm_num
    linarith

/-- `atan2` is invariant under scaling both arguments by a positive
constant (here both code arguments carry a factor `1 / c`). -/
theorem atan2_div_scale (y x c L : ℝ) (hc : 0 < c) :
    atan2 (y / c) (x / (c * L)) = atan2 y (x / L) := by
  unfold atan2
  have hz : (Complex.ofReal (x / (c * L)) + Complex.ofReal (y / c) * Complex.I) =
      Complex.ofReal (1 / c) * (Complex.ofReal (x / L) + Complex.ofReal y * Complex.I) := by
    push_cast
    ring
  rw [hz, Complex.arg_real_mul _ (by positivity : (0:ℝ) < 1 / c)]

/-- The code's epsilon-guarded azimuth equals the specification's azimuth
formula: dividing both `atan2` arguments by the positive `cos_alt_safe`
does not change the angle. -/
theorem azimuth_deg_eq_spec (lat lst ra dec : ℝ) :
    azimuth_deg lat lst ra dec = spec_azimuth_deg lat lst ra dec := by
  unfold azimuth_deg spec_azimuth_deg sin_az cos_az
  rw [atan2_div_scale _ _ _ _ (cos_alt_safe_pos lat lst ra dec)]

/-- Each batch result element equals the specification's pipeline
element. -/
theorem bulkStar_eq_spec (m lat lst : ℝ) (star : ℝ × ℝ × ℝ) :
    bulkStar m lat lst star = specBulkStar m lat lst star := by
  unfold bulkStar specBulkStar
  rw [azimuth_deg_eq_spec]

/-- C1: for a non-empty batch and an observer with latitude in `[-90, 90]`
and longitude in `[-180, 180]`, `calculate_bulk_positions` computes each
element by exactly the specification pipeline (hour angle `LST − RA` times
15 to radians; altitude `asin(clamp(sin dec·sin lat + cos dec·cos lat·
cos HA, -1, 1))`; azimuth `atan2(-cos dec·sin HA, (sin dec − sin alt·
sin lat)/cos lat)` normalized to `[0, 360)`, the epsilon guard on
`cos(alt)` being angle-preserving; refraction `1.02/tan(deg2rad(alt +
10.3/(alt + 5.11)))/60` added only when the uncorrected altitude exceeds
−1°), and the batch path leaves the memoization cache untouched and
independent of the result. -/
theorem calculate_bulk_positions_follows_spec (m lat lon gast : ℝ)
    (stars : List (ℝ × ℝ × ℝ)) (cache : Cache) (hne : stars ≠ [])
    (hlat1 : -90 ≤ lat) (hlat2 : lat ≤ 90) (hlon1 : -180 ≤ lon) (hlon2 : lon ≤ 180) :
    calculate_bulk_positions_cached cache m stars lat lon gast =
      (stars.map (specBulkStar m lat (gast + lon / 15)), cache) := by
  have hf : bulkStar m lat (gast + lon / 15) = specBulkStar m lat (gast + lon / 15) :=
    funext (fun s => bulkStar_eq_spec m lat (gast + lon / 15) s)
  unfold calculate_bulk_positions_cached calculate_bulk_positions
  cases stars with
  | nil => exact absurd rfl hne
  | cons a l =>
    rw [hf]

/-- Witness for C1 on a one-star batch at the origin observer. -/
theorem calculate_bulk_positions_follows_spec_witness :
    calculate_bulk_positions_cached [] 0 [(0, 0, 0)] 0 0 0 =
      ([(0, 0, 0)].map (specBulkStar 0 0 (0 + 0 / 15)), []) :=
  calculate_bulk_positions_follows_spec 0 0 0 0 [(0, 0, 0)] []
    (List.cons_ne_nil _ _) (by norm_num) (by norm_num) (by norm_num) (by norm_num)

/-! ## Theorems: strict visibility threshold in both paths (C9) -/

/-- C9: both the single-object path (on a fresh computation) and every
element of the batch path classify visibility by a strict comparison of
the altitude against the configured minimum: altitude equal to the minimum
is not visible, strictly above is visible. -/
theorem visibility_strict_threshold :
    (∀ (altaz : ℚ → ℚ → Observer → ℚ × ℚ) (m ra dec : ℚ) (obs : Observer)
       (mag : ℚ) (name : String) (hip : Option ℤ) (par : Option ℚ) (cache : Cache),
       cacheLookup (cspKey ra dec obs) cache = none →
       ((calculate_star_position altaz m ra dec obs mag name hip par cache).1.is_visible = true ↔
         m < (calculate_star_position altaz m ra dec obs mag name hip par cache).1.altitude)) ∧
    (∀ (m lat lon gast : ℝ) (stars : List (ℝ × ℝ × ℝ)) (cache : Cache),
       ∀ p ∈ (calculate_bulk_positions_cached cache m stars lat lon gast).1,
         (p.is_visible ↔ m < p.altitude)) := by
  constructor
  · intro altaz m ra dec obs mag name hip par cache h
    unfold calculate_star_position
    rw [h]
    simp [freshPosition]
  · intro m lat lon gast stars cache p hp
    unfold calculate_bulk_positions_cached calculate_bulk_positions at hp
    cases stars with
    | nil => simp at hp
    | cons a l =>
      obtain ⟨s, hs, rfl⟩ := List.mem_map.mp hp
      exact Iff.rfl

/-- Witness for C9: a fresh single-object call on an empty cache, and the
single element of a one-star batch. -/
theorem visibility_strict_threshold_witness :
    ((calculate_star_position altaz0 0 1 2 obs0 3 "Sirius" none none []).1.is_visible = true ↔
      (0:ℚ) < (calculate_star_position altaz0 0 1 2 obs0 3 "Sirius" none none []).1.altitude) ∧
    ((bulkStar 0 0 (0 + 0 / 15) (0, 0, 0)).is_visible ↔
      (0:ℝ) < (bulkStar 0 0 (0 + 0 / 15) (0, 0, 0)).altitude) :=
  ⟨visibility_strict_threshold.1 altaz0 0 1 2 obs0 3 "Sirius" none none [] rfl,
   visibility_strict_threshold.2 0 0 0 0 [(0, 0, 0)] []
     (bulkStar 0 0 (0 + 0 / 15) (0, 0, 0))
     (show bulkStar 0 0 (0 + 0 / 15) (0, 0, 0) ∈ [bulkStar 0 0 (0 + 0 / 15) (0, 0, 0)] from
       List.mem_singleton.mpr rfl)⟩
